import Mathlib

/- Shallow embedding of RecoLocalMuon/CSCSegment/src/CSCSegAlgoDF.cc.

   Doubles and floats are modelled as exact rationals.  The external
   collaborators that the source consumes as pure query interfaces — the
   CSCChamber/CSCLayer geometry adapter (toGlobal/toLocal/layer positions)
   and the C math library (GlobalPoint::phi i.e. atan2, std::sqrt, M_PI) —
   are supplied as components of `DFEnv`.  CLHEP matrix inversion and
   `solve` are modelled by the exact inverse (adjugate over the exact
   determinant); on a singular matrix CLHEP sets `ierr` and the source
   proceeds with whatever the routine left behind, which we model by
   returning the input matrix unchanged. -/

/-- A CSCRecHit2D: opaque identity `hid` (standing for pointer identity,
used by the source for `==` comparisons), the layer number returned by
`cscDetId().layer()`, the local position `(lx, ly)` in its layer frame,
and the local position error entries `(exx, exy, eyy)`. -/
structure CSCRecHit2D where
  hid : Nat
  layer : Int
  lx : ℚ
  ly : ℚ
  exx : ℚ
  exy : ℚ
  eyy : ℚ
deriving DecidableEq, Repr

/-- Placeholder hit used as the default of `List.getD`; every index the
algorithm uses is in range, so it is never actually read. -/
def dummyHit : CSCRecHit2D := ⟨0, 0, 0, 0, 0, 0, 0⟩

/-- The external geometry adapter and math library, as consumed by
CSCSegAlgoDF.  Points and vectors are `(x, y, z)` triples of rationals. -/
structure DFEnv where
  layerZ : Int → ℚ
  layerToGlobal : Int → ℚ × ℚ → ℚ × ℚ × ℚ
  chamberToLocal : ℚ × ℚ × ℚ → ℚ × ℚ × ℚ
  chamberToGlobalPoint : ℚ × ℚ × ℚ → ℚ × ℚ × ℚ
  chamberToGlobalVec : ℚ × ℚ × ℚ → ℚ × ℚ × ℚ
  atan2 : ℚ → ℚ → ℚ
  sqrt : ℚ → ℚ
  pi : ℚ

/-- Configuration read once in the constructor of CSCSegAlgoDF.
`minHitsPerSegment` is an `int` in the source but is only ever used in the
unsigned comparison `protoSegment.size() < minHitsPerSegment+iadd`, so it
is modelled as a natural number. -/
structure DFConfig where
  debug : Bool
  minLayersApart : Int
  nSigmaFromSegment : ℚ
  minHitsPerSegment : ℕ
  dRPhiFineMax : ℚ
  dPhiFineMax : ℚ
  tanThetaMax : ℚ
  tanPhiMax : ℚ

/-- The output record: CSCSegment(protoSegment, protoIntercept,
protoDirection, protoErrors, protoChi2). -/
structure CSCSegment where
  hits : List CSCRecHit2D
  intercept : ℚ × ℚ
  direction : ℚ × ℚ × ℚ
  errors : List (List ℚ)
  chi2 : ℚ

/-- Placeholder segment used as the default of `List.getD` in concrete
statements. -/
def dummySeg : CSCSegment := ⟨[], (0, 0), (0, 0, 0), [], 0⟩

/-- The mutable member state of CSCSegAlgoDF during one chamber
invocation of buildSegments. -/
@[ext]
structure DFState where
  usedHits : List Bool
  protoSegment : List CSCRecHit2D
  protoIntercept : ℚ × ℚ
  protoSlope_u : ℚ
  protoSlope_v : ℚ
  protoDirection : ℚ × ℚ × ℚ
  protoChi2 : ℚ
  closeHits : List CSCRecHit2D
deriving DecidableEq

/-- Initial member state at the start of a chamber invocation: the
`usedHits` flags are freshly initialised to false (line 93); the other
members are overwritten before being read. -/
def initState (n : ℕ) : DFState :=
  ⟨List.replicate n false, [], (0, 0), 0, 0, (0, 0, 0), 0, []⟩

/- ----------------------------------------------------------------- -/
/- Small exact linear algebra over lists of rationals, standing in for
   the CLHEP HepMatrix / AlgebraicSymMatrix operations.                -/
/- ----------------------------------------------------------------- -/

/-- Vector sum, entrywise. -/
def vecAddL (a b : List ℚ) : List ℚ := List.zipWith (· + ·) a b

/-- Matrix sum, entrywise. -/
def matAddL (a b : List (List ℚ)) : List (List ℚ) := List.zipWith vecAddL a b

/-- Zero vector of length n. -/
def zeroVec (n : ℕ) : List ℚ := List.replicate n 0

/-- Zero n-by-m matrix. -/
def zeroMat (n m : ℕ) : List (List ℚ) := List.replicate n (zeroVec m)

/-- Dot product. -/
def dotL (a b : List ℚ) : ℚ := (List.zipWith (· * ·) a b).sum

/-- Transpose of a rectangular matrix. -/
def transposeL (M : List (List ℚ)) : List (List ℚ) :=
  (List.range (M.headD []).length).map fun j => M.map (fun row => row.getD j 0)

/-- Matrix product. -/
def matMulL (A B : List (List ℚ)) : List (List ℚ) :=
  let Bt := transposeL B
  A.map fun row => Bt.map (dotL row)

/-- Matrix-vector product. -/
def matVecL (A : List (List ℚ)) (b : List ℚ) : List ℚ := A.map (dotL b)

/-- Determinant by Laplace expansion along the first row; the natural
number argument is a structural-recursion fuel always instantiated with
the number of rows. -/
def detAux : ℕ → List (List ℚ) → ℚ
  | 0, _ => 1
  | _ + 1, [] => 1
  | n + 1, r :: rs =>
    ((List.range r.length).map fun j =>
      (-1 : ℚ) ^ j * r.getD j 0 * detAux n (rs.map fun row => row.eraseIdx j)).sum

/-- Determinant of a square matrix. -/
def detL (M : List (List ℚ)) : ℚ := detAux M.length M

/-- Exact inverse via the adjugate.  Models CLHEP `invert(ierr)`: on a
singular matrix the source logs the condition and continues with what the
routine produced; we return the input unchanged in that case. -/
def matInvert (M : List (List ℚ)) : List (List ℚ) :=
  let n := M.length
  let d := detL M
  if d = 0 then M
  else (List.range n).map fun i => (List.range n).map fun j =>
    (-1 : ℚ) ^ (i + j) * detL ((M.eraseIdx j).map fun row => row.eraseIdx i) / d

/-- Models CLHEP `solve(M, B)` (Gaussian elimination): for an invertible
matrix this is the unique solution of M·p = B. -/
def solveLin (M : List (List ℚ)) (B : List ℚ) : List ℚ := matVecL (matInvert M) B

/-- Inversion of the symmetric 2x2 local covariance [[xx, xy], [xy, yy]],
as done in place by `IC.invert(ierr)`; a singular covariance is kept
as-is (the source logs and proceeds). Returns (IC11, IC12, IC22). -/
def invertCov2 (xx xy yy : ℚ) : ℚ × ℚ × ℚ :=
  let det := xx * yy - xy * xy
  if det = 0 then (xx, xy, yy) else (yy / det, -xy / det, xx / det)

/- ----------------------------------------------------------------- -/
/- The algorithm itself.                                              -/
/- ----------------------------------------------------------------- -/

/-- Local coordinates of a hit in the chamber frame:
`theChamber->toLocal(layer->toGlobal(hit.localPosition()))`. -/
def hitLocal (env : DFEnv) (h : CSCRecHit2D) : ℚ × ℚ × ℚ :=
  env.chamberToLocal (env.layerToGlobal h.layer (h.lx, h.ly))

/-- Shift of an azimuthal angle: `if (phi < 0.) phi += 2.*M_PI;`
(lines 247 and 256). -/
def shiftPhi (pi phi : ℚ) : ℚ := if phi < 0 then phi + 2 * pi else phi

/-- Wrap-and-absolute-value applied to the raw angle difference
`Sphi - Hphi` (lines 259-262 of isHitNearSegment). -/
def deltaPhiWrapAbs (pi d : ℚ) : ℚ :=
  let d1 := if 2 * pi < d then d - 2 * pi else d
  let d2 := if d1 < -(2 * pi) then d1 + 2 * pi else d1
  if d2 < 0 then -d2 else d2

/-- isHitNearSegment: compare a rechit with the position expected from
the linear model of the proto-segment at the chamber-local depth of the hit. -/
def isHitNearSegment (env : DFEnv) (cfg : DFConfig) (s : DFState)
    (hit : CSCRecHit2D) : Bool :=
  let Hgp := env.layerToGlobal hit.layer (hit.lx, hit.ly)
  let Hphi := shiftPhi env.pi (env.atan2 Hgp.2.1 Hgp.1)
  let Hlp := env.chamberToLocal Hgp
  let z := Hlp.2.2
  let LocalX := s.protoIntercept.1 + s.protoSlope_u * z
  let LocalY := s.protoIntercept.2 + s.protoSlope_v * z
  let Sgp := env.chamberToGlobalPoint (LocalX, LocalY, z)
  let Sphi := shiftPhi env.pi (env.atan2 Sgp.2.1 Sgp.1)
  let R := env.sqrt (Sgp.1 * Sgp.1 + Sgp.2.1 * Sgp.2.1)
  let deltaPhi := deltaPhiWrapAbs env.pi (Sphi - Hphi)
  let RdeltaPhi := R * deltaPhi
  decide (RdeltaPhi < cfg.dRPhiFineMax) && decide (deltaPhi < cfg.dPhiFineMax)

/-- addHit: refuse a hit already in the proto-segment (compared by
identity), otherwise append it.  The `layer` argument is kept to mirror
the source signature; the body does not use it. -/
def addHit (s : DFState) (aHit : CSCRecHit2D) (layer : Int) : Bool × DFState :=
  if aHit ∈ s.protoSegment then (false, s)
  else (true, { s with protoSegment := s.protoSegment ++ [aHit] })

/-- hasHitOnLayer: is there already a proto-segment hit on this layer? -/
def hasHitOnLayer (s : DFState) (layer : Int) : Bool :=
  s.protoSegment.any fun it => it.layer == layer

/-- Accumulation of the covariance-weighted 4x4 normal equations M·p = B
over the proto-segment hits (first pass of updateParameters). -/
def fitAccum (env : DFEnv) (hits : List CSCRecHit2D) : List (List ℚ) × List ℚ :=
  hits.foldl (fun MB hit =>
    let lp := hitLocal env hit
    let u := lp.1
    let v := lp.2.1
    let z := lp.2.2
    let w := invertCov2 hit.exx hit.exy hit.eyy
    let w11 := w.1
    let w12 := w.2.1
    let w22 := w.2.2
    (matAddL MB.1
      [[w11, w12, w11 * z, w12 * z],
       [w12, w22, w12 * z, w22 * z],
       [w11 * z, w12 * z, w11 * z * z, w12 * z * z],
       [w12 * z, w22 * z, w12 * z * z, w22 * z * z]],
     vecAddL MB.2
      [u * w11 + v * w12, u * w12 + v * w22,
       (u * w11 + v * w12) * z, (u * w12 + v * w22) * z]))
    (zeroMat 4 4, zeroVec 4)

/-- updateParameters: least-squares fit of the proto-segment, updating
the intercept, the two slopes, and the chi-square.  Local coordinates are
recomputed from the geometry adapter on every pass, as in the source. -/
def updateParameters (env : DFEnv) (s : DFState) : DFState :=
  let MB := fitAccum env s.protoSegment
  let p := solveLin MB.1 MB.2
  let icptX := p.getD 0 0
  let icptY := p.getD 1 0
  let su := p.getD 2 0
  let sv := p.getD 3 0
  let chsq := s.protoSegment.foldl (fun c hit =>
      let lp := hitLocal env hit
      let u := lp.1
      let v := lp.2.1
      let z := lp.2.2
      let du := icptX + su * z - u
      let dv := icptY + sv * z - v
      let w := invertCov2 hit.exx hit.exy hit.eyy
      c + du * du * w.1 + 2 * du * dv * w.2.1 + dv * dv * w.2.2) 0
  { s with protoIntercept := (icptX, icptY), protoSlope_u := su,
           protoSlope_v := sv, protoChi2 := chsq }

/-- The erase-then-add attempt of compareProtoSegment (lines 434-445):
remove every proto-segment hit on `layer`, try to add `h`, and refit if
the add succeeded.  Returns the `ok` flag and the tentative state. -/
def compareAttempt (env : DFEnv) (h : CSCRecHit2D) (layer : Int)
    (s : DFState) : Bool × DFState :=
  let t0 := { s with protoSegment := s.protoSegment.filter fun x => x.layer != layer }
  let r := addHit t0 h layer
  (r.1, if r.1 then updateParameters env r.2 else r.2)

/-- compareProtoSegment: snapshot the proto-segment state, attempt the
substitution, and roll the snapshot back unless the add succeeded and the
new chi-square is not greater than the old one. -/
def compareProtoSegment (env : DFEnv) (h : CSCRecHit2D) (layer : Int)
    (s : DFState) : DFState :=
  let r := compareAttempt env h layer s
  if s.protoChi2 < r.2.protoChi2 ∨ r.1 = false then
    { r.2 with protoChi2 := s.protoChi2, protoIntercept := s.protoIntercept,
               protoSlope_u := s.protoSlope_u, protoSlope_v := s.protoSlope_v,
               protoDirection := s.protoDirection, protoSegment := s.protoSegment }
  else r.2

/-- One-hit inner loop of flagHitsAsUsed: scan the working hit list and
set the used flag at every index holding this hit (identity comparison). -/
def markHit (hits : List CSCRecHit2D) (used : List Bool) (h : CSCRecHit2D) : List Bool :=
  (List.range hits.length).foldl
    (fun u iu => if hits.getD iu dummyHit = h then u.set iu true else u) used

/-- flagHitsAsUsed: flag every hit of the finalized proto-segment, and
every hit of the closeHits list, as used. -/
def flagHitsAsUsed (hits : List CSCRecHit2D) (s : DFState) : DFState :=
  let u1 := s.protoSegment.foldl (markHit hits) s.usedHits
  let u2 := s.closeHits.foldl (markHit hits) u1
  { s with usedHits := u2 }

/-- The scan of tryAddingHitsToSegment over all hits in the chamber:
skip the two seed indices and used hits; a near hit is added directly if
its layer is free and deferred into closeHits otherwise. -/
def extendScan (env : DFEnv) (cfg : DFConfig) (hits : List CSCRecHit2D)
    (i1 i2 : ℕ) : List ℕ → DFState → DFState
  | [], s => s
  | i :: rest, s =>
    if i = i1 ∨ i = i2 then extendScan env cfg hits i1 i2 rest s
    else if s.usedHits.getD i false then extendScan env cfg hits i1 i2 rest s
    else
      let h := hits.getD i dummyHit
      if isHitNearSegment env cfg s h then
        if hasHitOnLayer s h.layer then
          extendScan env cfg hits i1 i2 rest { s with closeHits := s.closeHits ++ [h] }
        else
          extendScan env cfg hits i1 i2 rest (addHit s h h.layer).2
      else extendScan env cfg hits i1 i2 rest s

/-- tryAddingHitsToSegment: clear closeHits, scan all remaining hits, and
if the proto-segment reached 3 hits and some hits were deferred, refit and
run compareProtoSegment once per closeHits entry in insertion order. -/
def tryAddingHitsToSegment (env : DFEnv) (cfg : DFConfig)
    (hits : List CSCRecHit2D) (i1 i2 : ℕ) (s : DFState) : DFState :=
  let s1 := extendScan env cfg hits i1 i2 (List.range hits.length) { s with closeHits := [] }
  if s1.protoSegment.length < 3 ∨ s1.closeHits.length < 1 then s1
  else
    let s2 := updateParameters env s1
    s2.closeHits.foldl (fun t hh => compareProtoSegment env hh hh.layer t) s2

/-- The provisional seed slopes of buildSegments (lines 117-131).  The
source computes `gp2 = l2->toGlobal(h1->localPosition())` — the FIRST
hit local position projected through the frame of the SECOND layer — so
the measured position of the second hit never enters; `h2` is kept as a parameter to
mirror the source, which declares it in the same block. -/
def protoSlopes (env : DFEnv) (h1 h2 : CSCRecHit2D) (layer1 layer2 : Int) : ℚ × ℚ :=
  let gp1 := env.layerToGlobal layer1 (h1.lx, h1.ly)
  let lp1 := env.chamberToLocal gp1
  let gp2 := env.layerToGlobal layer2 (h1.lx, h1.ly)
  let lp2 := env.chamberToLocal gp2
  let dz := gp2.2.2 - gp1.2.2
  ((lp2.1 - lp1.1) / dz, (lp2.2.1 - lp1.2.1) / dz)

/-- Modelled from the spec: "skip if the raw slope estimate between the
two (computed from their global-to-local-projected positions and layer
z-gap) exceeds configured maximum bounds" — the own local positions of
both hits are projected, so `gp2 = l2->toGlobal(h2->localPosition())`. -/
def protoSlopes_fromSpec (env : DFEnv) (h1 h2 : CSCRecHit2D) (layer1 layer2 : Int) : ℚ × ℚ :=
  let gp1 := env.layerToGlobal layer1 (h1.lx, h1.ly)
  let lp1 := env.chamberToLocal gp1
  let gp2 := env.layerToGlobal layer2 (h2.lx, h2.ly)
  let lp2 := env.chamberToLocal gp2
  let dz := gp2.2.2 - gp1.2.2
  ((lp2.1 - lp1.1) / dz, (lp2.2.1 - lp1.2.1) / dz)

/-- State mutation of a seed-pair iteration up to the entrance-angle cuts
(lines 122-131): clear the proto-segment, set the intercept to the local
position of the first hit, and set the provisional slopes. -/
def seedProtoState (env : DFEnv) (h1 h2 : CSCRecHit2D) (layer1 layer2 : Int)
    (s : DFState) : DFState :=
  let sl := protoSlopes env h1 h2 layer1 layer2
  { s with protoSegment := [], protoIntercept := (h1.lx, h1.ly),
           protoSlope_u := sl.1, protoSlope_v := sl.2 }

/-- The adaptive minimum hit count (lines 145-147): the configured base,
plus one if the chamber holds more than 20 hits, plus one more beyond 30. -/
def minHitsAdaptive (cfg : DFConfig) (nHit : ℕ) : ℕ :=
  cfg.minHitsPerSegment + ((if 20 < nHit then 1 else 0) + (if 30 < nHit then 1 else 0))

/-- Local direction of the finalized proto-segment (lines 157-165),
sign-flipped so that it points outward from the interaction point. -/
def computeDirection (env : DFEnv) (s : DFState) : ℚ × ℚ × ℚ :=
  let dz := 1 / env.sqrt (1 + s.protoSlope_u * s.protoSlope_u + s.protoSlope_v * s.protoSlope_v)
  let dx := dz * s.protoSlope_u
  let dy := dz * s.protoSlope_v
  let globalZpos := (env.chamberToGlobalPoint (s.protoIntercept.1, s.protoIntercept.2, 0)).2.2
  let globalZdir := (env.chamberToGlobalVec (dx, dy, dz)).2.2
  let directionSign := globalZpos * globalZdir
  let vx := directionSign * dx
  let vy := directionSign * dy
  let vz := directionSign * dz
  let n := env.sqrt (vx * vx + vy * vy + vz * vz)
  (vx / n, vy / n, vz / n)

/-- calculateError: build the (2n x 4) design matrix and the block
diagonal (2n x 2n) weight matrix of raw covariances, invert, form
Aᵀ·W⁻¹·A, invert again, and swap the diagonal 2x2 blocks so that slope
errors come first. -/
def calculateError (env : DFEnv) (s : DFState) : List (List ℚ) :=
  let nhits := s.protoSegment.length
  let zs := s.protoSegment.map fun h => (hitLocal env h).2.2
  let weights := (List.range (2 * nhits)).map fun r => (List.range (2 * nhits)).map fun c =>
    let h := s.protoSegment.getD (r / 2) dummyHit
    if r = c then (if r % 2 = 0 then h.exx else h.eyy)
    else if (c = r + 1 ∧ r % 2 = 0) ∨ (c + 1 = r ∧ r % 2 = 1) then h.exy
    else 0
  let A := (List.range (2 * nhits)).map fun r =>
    let z := zs.getD (r / 2) 0
    if r % 2 = 0 then [1, 0, z, 0] else [0, 1, 0, z]
  let winv := matInvert weights
  let a := matMulL (matMulL (transposeL A) winv) A
  let ainv := matInvert a
  let g := fun i j => (ainv.getD i []).getD j 0
  [[g 2 2, g 2 3, g 0 2, g 0 3],
   [g 3 2, g 3 3, g 1 2, g 1 3],
   [g 2 0, g 2 1, g 0 0, g 0 1],
   [g 3 0, g 3 1, g 1 0, g 1 1]]

/-- Construction of the output CSCSegment record (line 170). -/
def mkSegment (env : DFEnv) (s : DFState) : CSCSegment :=
  ⟨s.protoSegment, s.protoIntercept, s.protoDirection, calculateError env s, s.protoChi2⟩

/-- The inner (backward) seed loop of buildSegments over second-seed
indices, threading the member state and the accumulated segment list.
`Except.error` is an early `return` of the whole chamber invocation. -/
def seedPairIter (env : DFEnv) (cfg : DFConfig) (hits : List CSCRecHit2D)
    (lidx : List Int) (nHit : ℕ) (i1 : ℕ) (h1 : CSCRecHit2D) (layer1 : Int) :
    List ℕ → DFState → List CSCSegment →
    Except (List CSCSegment) (DFState × List CSCSegment)
  | [], s, acc => Except.ok (s, acc)
  | i2 :: rest, s, acc =>
    if s.usedHits.getD i2 false then
      seedPairIter env cfg hits lidx nHit i1 h1 layer1 rest s acc
    else if lidx.getD i2 0 - layer1 < cfg.minLayersApart then
      seedPairIter env cfg hits lidx nHit i1 h1 layer1 rest s acc
    else
      let s1 := seedProtoState env h1 (hits.getD i2 dummyHit) layer1 (lidx.getD i2 0) s
      if cfg.tanThetaMax < |s1.protoSlope_v| then
        seedPairIter env cfg hits lidx nHit i1 h1 layer1 rest s1 acc
      else if cfg.tanPhiMax < |s1.protoSlope_u| then
        seedPairIter env cfg hits lidx nHit i1 h1 layer1 rest s1 acc
      else
        let s2 := tryAddingHitsToSegment env cfg hits i1 i2
          { s1 with protoSegment := [h1, hits.getD i2 dummyHit] }
        if s2.protoSegment.length < minHitsAdaptive cfg nHit then
          seedPairIter env cfg hits lidx nHit i1 h1 layer1 rest s2 acc
        else
          let s3 := updateParameters env s2
          let s4 := { s3 with protoDirection := computeDirection env s3 }
          let acc2 := acc ++ [mkSegment env s4]
          if nHit - s4.protoSegment.length < 3 then Except.error acc2
          else if 4 < acc2.length then Except.error acc2
          else seedPairIter env cfg hits lidx nHit i1 h1 layer1 rest (flagHitsAsUsed hits s4) acc2

/-- The outer (forward) seed loop of buildSegments over first-seed
indices.  The source computes gp1/lp1 here once per first seed; those are
pure recomputations of values internal to `protoSlopes`, so only the seed
hit and its layer are passed down. -/
def seedOuterIter (env : DFEnv) (cfg : DFConfig) (hits : List CSCRecHit2D)
    (lidx : List Int) (nHit : ℕ) (innerIdx : List ℕ) :
    List ℕ → DFState → List CSCSegment → List CSCSegment
  | [], _, acc => acc
  | i1 :: rest, s, acc =>
    if s.usedHits.getD i1 false then
      seedOuterIter env cfg hits lidx nHit innerIdx rest s acc
    else
      match seedPairIter env cfg hits lidx nHit i1 (hits.getD i1 dummyHit)
          (lidx.getD i1 0) innerIdx s acc with
      | Except.error segs => segs
      | Except.ok (s2, acc2) => seedOuterIter env cfg hits lidx nHit innerIdx rest s2 acc2

/-- The hit-ordering reversal condition of buildSegments (lines 76-90),
decided from the layer-1 and layer-6 z positions of the chamber alone. -/
def reverseCond (env : DFEnv) : Bool :=
  let z1 := env.layerZ 1
  let z6 := env.layerZ 6
  if 0 < z1 then decide (z6 < z1)
  else if z1 < 0 then decide (z1 < z6)
  else false

/-- The hit-ordering normalization: reverse the hit list and its parallel
layer-index list together when the reversal condition holds. -/
def normalizeOrder (env : DFEnv) (p : List CSCRecHit2D × List Int) :
    List CSCRecHit2D × List Int :=
  if reverseCond env then (p.1.reverse, p.2.reverse) else p

/-- buildSegments: the full chamber invocation. -/
def buildSegments (env : DFEnv) (cfg : DFConfig)
    (rechits : List CSCRecHit2D) : List CSCSegment :=
  let nHit := rechits.length
  if nHit < 3 then []
  else
    let np := normalizeOrder env (rechits, rechits.map CSCRecHit2D.layer)
    seedOuterIter env cfg np.1 np.2 nHit ((List.range' 1 (nHit - 1)).reverse)
      (List.range nHit) (initState nHit) []

/-- Segments carried by either outcome of the inner seed loop. -/
def exceptSegs : Except (List CSCSegment) (DFState × List CSCSegment) → List CSCSegment
  | Except.error segs => segs
  | Except.ok (_, segs) => segs

/- ----------------------------------------------------------------- -/
/- Concrete instances used by the closed theorems below.  The layer
   frames are pure z-translations, the chamber frame is the identity,
   and every hit sits at local (0, 0), so the atan2/sqrt oracles
   returning 0 agree with the real math library on every point these
   runs evaluate them at.                                             -/
/- ----------------------------------------------------------------- -/

/-- Hit number i on a given layer, at local position (0,0) with unit
diagonal covariance. -/
def mkHit (i : ℕ) (l : Int) : CSCRecHit2D := ⟨i, l, 0, 0, 1, 0, 1⟩

/-- Geometry with layer n at global z = n, identity chamber frame. -/
def envA : DFEnv :=
  ⟨fun l => (l : ℚ), fun l p => (p.1, p.2, (l : ℚ)), id, id, id,
   fun _ _ => 0, fun _ => 0, 4⟩

/-- Configuration: minLayersApart 1, minHitsPerSegment 2, proximity
thresholds 0 (no hit is ever near), slope bounds 1. -/
def cfgA : DFConfig := ⟨false, 1, 0, 2, 0, 0, 1, 1⟩

/-- Ten hits: one on layer 1, nine on layer 2. -/
def hitsA : List CSCRecHit2D :=
  [mkHit 0 1, mkHit 1 2, mkHit 2 2, mkHit 3 2, mkHit 4 2,
   mkHit 5 2, mkHit 6 2, mkHit 7 2, mkHit 8 2, mkHit 9 2]

/-- Five hits on layers 1 to 5. -/
def hitsB : List CSCRecHit2D :=
  [mkHit 0 1, mkHit 1 2, mkHit 2 3, mkHit 3 4, mkHit 4 5]

/-- Three hits on layers 1 to 3. -/
def hits3 : List CSCRecHit2D := [mkHit 0 1, mkHit 1 2, mkHit 2 3]

/-- A second seed hit on layer 2 at local position (10, 0). -/
def hC1b : CSCRecHit2D := ⟨1, 2, 10, 0, 1, 0, 1⟩

/-- One-hit working state whose proto-segment holds that hit, used flag
clear. -/
def sW1 : DFState := ⟨[false], [mkHit 0 1], (0, 0), 0, 0, (0, 0, 0), 0, []⟩

/-- Working state with a single already-used hit slot. -/
def sW2 : DFState := ⟨[true], [], (0, 0), 0, 0, (0, 0, 0), 0, []⟩

/-- Working state holding one proto-segment hit on layer 1. -/
def sW6 : DFState := ⟨[], [mkHit 0 1], (0, 0), 0, 0, (0, 0, 0), 0, []⟩

/-- Geometry of a reversing chamber: layer n sits at global z = 7 - n,
so z1 = 6 > z6 = 1 > 0 and the reversal condition of buildSegments
holds. -/
def envR : DFEnv :=
  ⟨fun l => ((7 - l : Int) : ℚ), fun l p => (p.1, p.2, ((7 - l : Int) : ℚ)), id, id, id,
   fun _ _ => 0, fun _ => 0, 4⟩

/-- A hit list for the reversing chamber that is already in canonical
z-increasing order (layers 6, 5, 4 sit at depths 1, 2, 3), with its
parallel layer-index list. -/
def pR : List CSCRecHit2D × List Int :=
  ([mkHit 0 6, mkHit 1 5, mkHit 2 4], [6, 5, 4])

/-- Intermediate states of the seed-pair (0, 2) iteration on hits3. -/
def c5s1 : DFState := seedProtoState envA (mkHit 0 1) (mkHit 2 3) 1 3 (initState 3)

/-- State after the extension scan of that iteration. -/
def c5s2 : DFState :=
  tryAddingHitsToSegment envA cfgA hits3 0 2 { c5s1 with protoSegment := [mkHit 0 1, mkHit 2 3] }

/-- State after the final refit of that iteration. -/
def c5s3 : DFState := updateParameters envA c5s2
-- chunk: basic preservation lemmas + used-bit machinery

lemma updateParameters_usedHits (env : DFEnv) (s : DFState) :
    (updateParameters env s).usedHits = s.usedHits := rfl

lemma updateParameters_protoSegment (env : DFEnv) (s : DFState) :
    (updateParameters env s).protoSegment = s.protoSegment := rfl

lemma updateParameters_closeHits (env : DFEnv) (s : DFState) :
    (updateParameters env s).closeHits = s.closeHits := rfl

lemma getD_set_true (u : List Bool) (i j : ℕ) (hj : u.getD j false = true) :
    (u.set i true).getD j false = true := by
  induction u generalizing i j with
  | nil => simp at hj
  | cons a t ih =>
    cases i with
    | zero =>
      cases j with
      | zero => simp
      | succ j => simpa using hj
    | succ i =>
      cases j with
      | zero => simpa using hj
      | succ j => simpa using ih i j (by simpa using hj)

lemma getD_set_self (u : List Bool) (i : ℕ) (hi : i < u.length) :
    (u.set i true).getD i false = true := by
  induction u generalizing i with
  | nil => simp at hi
  | cons a t ih =>
    cases i with
    | zero => simp
    | succ i => simpa using ih i (by simpa using hi)

lemma markFold_preserve (hits : List CSCRecHit2D) (h : CSCRecHit2D) (l : List ℕ)
    (u : List Bool) (j : ℕ) (hj : u.getD j false = true) :
    (l.foldl (fun u iu => if hits.getD iu dummyHit = h then u.set iu true else u) u).getD j false
      = true := by
  induction l generalizing u with
  | nil => simpa using hj
  | cons a t ih =>
    simp only [List.foldl_cons]
    by_cases hc : hits.getD a dummyHit = h
    · rw [if_pos hc]
      exact ih (u.set a true) (getD_set_true u a j hj)
    · rw [if_neg hc]
      exact ih u hj

lemma markFold_length (hits : List CSCRecHit2D) (h : CSCRecHit2D) (l : List ℕ)
    (u : List Bool) :
    (l.foldl (fun u iu => if hits.getD iu dummyHit = h then u.set iu true else u) u).length
      = u.length := by
  induction l generalizing u with
  | nil => rfl
  | cons a t ih =>
    simp only [List.foldl_cons]
    by_cases hc : hits.getD a dummyHit = h
    · rw [if_pos hc, ih (u.set a true), List.length_set]
    · rw [if_neg hc, ih u]

lemma markFold_marks (hits : List CSCRecHit2D) (h : CSCRecHit2D) (l : List ℕ)
    (u : List Bool) (j : ℕ) (hjl : j ∈ l) (heq : hits.getD j dummyHit = h)
    (hlen : j < u.length) :
    (l.foldl (fun u iu => if hits.getD iu dummyHit = h then u.set iu true else u) u).getD j false
      = true := by
  induction l generalizing u with
  | nil => cases hjl
  | cons a t ih =>
    simp only [List.foldl_cons]
    rcases List.mem_cons.mp hjl with rfl | hmem
    · rw [if_pos heq]
      exact markFold_preserve hits h t (u.set j true) j (getD_set_self u j hlen)
    · by_cases hc : hits.getD a dummyHit = h
      · rw [if_pos hc]
        exact ih (u.set a true) hmem (by simpa using hlen)
      · rw [if_neg hc]
        exact ih u hmem hlen

lemma markHit_preserve (hits : List CSCRecHit2D) (u : List Bool) (h : CSCRecHit2D)
    (j : ℕ) (hj : u.getD j false = true) : (markHit hits u h).getD j false = true :=
  markFold_preserve hits h (List.range hits.length) u j hj

lemma markHit_length (hits : List CSCRecHit2D) (u : List Bool) (h : CSCRecHit2D) :
    (markHit hits u h).length = u.length :=
  markFold_length hits h (List.range hits.length) u

lemma markHit_marks (hits : List CSCRecHit2D) (u : List Bool) (h : CSCRecHit2D)
    (j : ℕ) (hj : j < hits.length) (heq : hits.getD j dummyHit = h) (hlen : j < u.length) :
    (markHit hits u h).getD j false = true :=
  markFold_marks hits h (List.range hits.length) u j (List.mem_range.mpr hj) heq hlen

lemma hitsFold_preserve (hits : List CSCRecHit2D) (hs : List CSCRecHit2D)
    (u : List Bool) (j : ℕ) (hj : u.getD j false = true) :
    (hs.foldl (markHit hits) u).getD j false = true := by
  induction hs generalizing u with
  | nil => simpa using hj
  | cons a t ih => simpa using ih (markHit hits u a) (markHit_preserve hits u a j hj)

lemma hitsFold_length (hits : List CSCRecHit2D) (hs : List CSCRecHit2D) (u : List Bool) :
    (hs.foldl (markHit hits) u).length = u.length := by
  induction hs generalizing u with
  | nil => rfl
  | cons a t ih =>
    simp only [List.foldl_cons]
    rw [ih (markHit hits u a), markHit_length]

lemma hitsFold_marks (hits : List CSCRecHit2D) (hs : List CSCRecHit2D)
    (u : List Bool) (j : ℕ) (hmem : hits.getD j dummyHit ∈ hs) (hj : j < hits.length)
    (hlen : j < u.length) : (hs.foldl (markHit hits) u).getD j false = true := by
  induction hs generalizing u with
  | nil => cases hmem
  | cons a t ih =>
    simp only [List.foldl_cons]
    rcases List.mem_cons.mp hmem with heq | hm
    · exact hitsFold_preserve hits t (markHit hits u a) j
        (markHit_marks hits u a j hj heq hlen)
    · exact ih (markHit hits u a) hm (by simpa [markHit_length] using hlen)

lemma flagHitsAsUsed_preserve (hits : List CSCRecHit2D) (s : DFState) (j : ℕ)
    (hj : s.usedHits.getD j false = true) :
    (flagHitsAsUsed hits s).usedHits.getD j false = true := by
  simp only [flagHitsAsUsed]
  exact hitsFold_preserve hits s.closeHits _ j
    (hitsFold_preserve hits s.protoSegment s.usedHits j hj)

lemma flagHitsAsUsed_marks (hits : List CSCRecHit2D) (s : DFState) (j : ℕ)
    (hj : j < hits.length) (hlen : j < s.usedHits.length)
    (hmem : hits.getD j dummyHit ∈ s.protoSegment ∨ hits.getD j dummyHit ∈ s.closeHits) :
    (flagHitsAsUsed hits s).usedHits.getD j false = true := by
  simp only [flagHitsAsUsed]
  rcases hmem with hm | hm
  · exact hitsFold_preserve hits s.closeHits _ j
      (hitsFold_marks hits s.protoSegment s.usedHits j hm hj hlen)
  · exact hitsFold_marks hits s.closeHits _ j hm hj
      (by simpa [hitsFold_length] using hlen)
-- chunk: state preservation through the candidate-search functions

lemma addHit_usedHits (s : DFState) (h : CSCRecHit2D) (layer : Int) :
    (addHit s h layer).2.usedHits = s.usedHits := by
  simp only [addHit]
  split_ifs <;> rfl

lemma addHit_closeHits (s : DFState) (h : CSCRecHit2D) (layer : Int) :
    (addHit s h layer).2.closeHits = s.closeHits := by
  simp only [addHit]
  split_ifs <;> rfl

lemma compareAttempt_usedHits (env : DFEnv) (h : CSCRecHit2D) (layer : Int) (s : DFState) :
    (compareAttempt env h layer s).2.usedHits = s.usedHits := by
  simp only [compareAttempt]
  split_ifs
  · rw [updateParameters_usedHits, addHit_usedHits]
  · rw [addHit_usedHits]

lemma compareAttempt_closeHits (env : DFEnv) (h : CSCRecHit2D) (layer : Int) (s : DFState) :
    (compareAttempt env h layer s).2.closeHits = s.closeHits := by
  simp only [compareAttempt]
  split_ifs
  · rw [updateParameters_closeHits, addHit_closeHits]
  · rw [addHit_closeHits]

lemma compareProtoSegment_usedHits (env : DFEnv) (h : CSCRecHit2D) (layer : Int) (s : DFState) :
    (compareProtoSegment env h layer s).usedHits = s.usedHits := by
  simp only [compareProtoSegment]
  split_ifs <;> simp only [compareAttempt_usedHits]

lemma compareProtoSegment_closeHits (env : DFEnv) (h : CSCRecHit2D) (layer : Int) (s : DFState) :
    (compareProtoSegment env h layer s).closeHits = s.closeHits := by
  simp only [compareProtoSegment]
  split_ifs <;> simp only [compareAttempt_closeHits]

lemma foldCompare_usedHits (env : DFEnv) (l : List CSCRecHit2D) (s : DFState) :
    (l.foldl (fun t hh => compareProtoSegment env hh hh.layer t) s).usedHits = s.usedHits := by
  induction l generalizing s with
  | nil => rfl
  | cons a t ih =>
    simp only [List.foldl_cons]
    rw [ih, compareProtoSegment_usedHits]

lemma extendScan_usedHits (env : DFEnv) (cfg : DFConfig) (hits : List CSCRecHit2D)
    (i1 i2 : ℕ) (l : List ℕ) (s : DFState) :
    (extendScan env cfg hits i1 i2 l s).usedHits = s.usedHits := by
  induction l generalizing s with
  | nil => rfl
  | cons i rest ih =>
    simp only [extendScan]
    split_ifs
    · rw [ih]
    · rw [ih]
    · rw [ih]
    · rw [ih]
      exact addHit_usedHits s _ _
    · rw [ih]

lemma tryAdding_usedHits (env : DFEnv) (cfg : DFConfig) (hits : List CSCRecHit2D)
    (i1 i2 : ℕ) (s : DFState) :
    (tryAddingHitsToSegment env cfg hits i1 i2 s).usedHits = s.usedHits := by
  simp only [tryAddingHitsToSegment]
  split_ifs
  · rw [extendScan_usedHits]
  · rw [foldCompare_usedHits, updateParameters_usedHits, extendScan_usedHits]
-- chunk: distinct-layer invariants of the proto-segment

lemma hasHitOnLayer_false (s : DFState) (layer : Int)
    (hf : hasHitOnLayer s layer = false) : ∀ x ∈ s.protoSegment, x.layer ≠ layer := by
  intro x hx heq
  have : s.protoSegment.any (fun it => it.layer == layer) = true :=
    List.any_eq_true.mpr ⟨x, hx, by simp [heq]⟩
  rw [hasHitOnLayer] at hf
  rw [hf] at this
  cases this

lemma addHit_pairwise (s : DFState) (h : CSCRecHit2D) (layer : Int)
    (hp : s.protoSegment.Pairwise fun a b => a.layer ≠ b.layer)
    (hfresh : ∀ x ∈ s.protoSegment, x.layer ≠ h.layer) :
    ((addHit s h layer).2.protoSegment).Pairwise fun a b => a.layer ≠ b.layer := by
  simp only [addHit]
  split_ifs
  · exact hp
  · rw [List.pairwise_append]
    refine ⟨hp, List.pairwise_singleton _ _, ?_⟩
    intro a ha b hb
    rw [List.mem_singleton] at hb
    subst hb
    exact hfresh a ha

lemma compareAttempt_pairwise (env : DFEnv) (h : CSCRecHit2D) (s : DFState)
    (hp : s.protoSegment.Pairwise fun a b => a.layer ≠ b.layer) :
    ((compareAttempt env h h.layer s).2.protoSegment).Pairwise fun a b => a.layer ≠ b.layer := by
  have hfilter : (s.protoSegment.filter fun x => x.layer != h.layer).Pairwise
      (fun a b => a.layer ≠ b.layer) := hp.filter _
  have hfresh : ∀ x ∈ s.protoSegment.filter (fun x => x.layer != h.layer), x.layer ≠ h.layer := by
    intro x hx
    have := List.of_mem_filter hx
    exact bne_iff_ne.mp this
  simp only [compareAttempt]
  split_ifs
  · rw [updateParameters_protoSegment]
    exact addHit_pairwise { s with protoSegment := _ } h h.layer hfilter hfresh
  · exact addHit_pairwise { s with protoSegment := _ } h h.layer hfilter hfresh

lemma compareProtoSegment_pairwise (env : DFEnv) (h : CSCRecHit2D) (s : DFState)
    (hp : s.protoSegment.Pairwise fun a b => a.layer ≠ b.layer) :
    ((compareProtoSegment env h h.layer s).protoSegment).Pairwise fun a b => a.layer ≠ b.layer := by
  simp only [compareProtoSegment]
  split_ifs
  · exact hp
  · exact compareAttempt_pairwise env h s hp

lemma foldCompare_pairwise (env : DFEnv) (l : List CSCRecHit2D) (s : DFState)
    (hp : s.protoSegment.Pairwise fun a b => a.layer ≠ b.layer) :
    ((l.foldl (fun t hh => compareProtoSegment env hh hh.layer t) s).protoSegment).Pairwise
      (fun a b => a.layer ≠ b.layer) := by
  induction l generalizing s with
  | nil => exact hp
  | cons a t ih =>
    simp only [List.foldl_cons]
    exact ih _ (compareProtoSegment_pairwise env a s hp)

lemma extendScan_pairwise (env : DFEnv) (cfg : DFConfig) (hits : List CSCRecHit2D)
    (i1 i2 : ℕ) (l : List ℕ) (s : DFState)
    (hp : s.protoSegment.Pairwise fun a b => a.layer ≠ b.layer) :
    ((extendScan env cfg hits i1 i2 l s).protoSegment).Pairwise
      (fun a b => a.layer ≠ b.layer) := by
  induction l generalizing s with
  | nil => exact hp
  | cons i rest ih =>
    simp only [extendScan]
    split_ifs with h1 h2 h3 h4
    · exact ih s hp
    · exact ih s hp
    · exact ih _ hp
    · exact ih _ (addHit_pairwise s _ _ hp
        (hasHitOnLayer_false s _ (Bool.not_eq_true _ ▸ Bool.of_not_eq_true h4)))
    · exact ih s hp

lemma tryAdding_pairwise (env : DFEnv) (cfg : DFConfig) (hits : List CSCRecHit2D)
    (i1 i2 : ℕ) (s : DFState)
    (hp : s.protoSegment.Pairwise fun a b => a.layer ≠ b.layer) :
    ((tryAddingHitsToSegment env cfg hits i1 i2 s).protoSegment).Pairwise
      (fun a b => a.layer ≠ b.layer) := by
  simp only [tryAddingHitsToSegment]
  split_ifs
  · exact extendScan_pairwise env cfg hits i1 i2 _ _ hp
  · refine foldCompare_pairwise env _ _ ?_
    rw [updateParameters_protoSegment]
    exact extendScan_pairwise env cfg hits i1 i2 _ _ hp

lemma layer_getD_map (hits : List CSCRecHit2D) (j : ℕ) :
    (hits.map CSCRecHit2D.layer).getD j 0 = (hits.getD j dummyHit).layer := by
  induction hits generalizing j with
  | nil => simp [dummyHit]
  | cons a t ih =>
    cases j with
    | zero => simp
    | succ j => simpa using ih j

lemma normalizeOrder_map (env : DFEnv) (rs : List CSCRecHit2D) :
    (normalizeOrder env (rs, rs.map CSCRecHit2D.layer)).2
      = (normalizeOrder env (rs, rs.map CSCRecHit2D.layer)).1.map CSCRecHit2D.layer := by
  simp only [normalizeOrder]
  split_ifs <;> simp [List.map_reverse]

lemma seedProtoState_usedHits (env : DFEnv) (h1 h2 : CSCRecHit2D) (layer1 layer2 : Int)
    (s : DFState) : (seedProtoState env h1 h2 layer1 layer2 s).usedHits = s.usedHits := rfl

lemma withProtoSegment_usedHits (s : DFState) (L : List CSCRecHit2D) :
    ({ s with protoSegment := L } : DFState).usedHits = s.usedHits := rfl

lemma withDirection_usedHits (s : DFState) (d : ℚ × ℚ × ℚ) :
    ({ s with protoDirection := d } : DFState).usedHits = s.usedHits := rfl

lemma withDirection_protoSegment (s : DFState) (d : ℚ × ℚ × ℚ) :
    ({ s with protoDirection := d } : DFState).protoSegment = s.protoSegment := rfl

lemma mkSegment_hits (env : DFEnv) (s : DFState) :
    (mkSegment env s).hits = s.protoSegment := rfl
-- chunk: inner seed-loop invariants

lemma seedPairIter_len (env : DFEnv) (cfg : DFConfig) (hits : List CSCRecHit2D)
    (lidx : List Int) (nHit : ℕ) (i1 : ℕ) (h1 : CSCRecHit2D) (layer1 : Int) :
    ∀ (l : List ℕ) (s : DFState) (acc : List CSCSegment), acc.length ≤ 4 →
    (match seedPairIter env cfg hits lidx nHit i1 h1 layer1 l s acc with
      | Except.error segs => segs.length ≤ 5
      | Except.ok (_, acc2) => acc2.length ≤ 4) := by
  intro l
  induction l with
  | nil => intro s acc hacc; simpa [seedPairIter] using hacc
  | cons i2 rest ih =>
    intro s acc hacc
    simp only [seedPairIter]
    set s1 := seedProtoState env h1 (hits.getD i2 dummyHit) layer1 (lidx.getD i2 0) s with hs1
    set s2 := tryAddingHitsToSegment env cfg hits i1 i2
      { s1 with protoSegment := [h1, hits.getD i2 dummyHit] } with hs2
    set s3 := updateParameters env s2 with hs3
    clear_value s3 s2 s1
    by_cases h1c : s.usedHits.getD i2 false = true
    · rw [if_pos h1c]; exact ih s acc hacc
    rw [if_neg h1c]
    by_cases h2c : lidx.getD i2 0 - layer1 < cfg.minLayersApart
    · rw [if_pos h2c]; exact ih s acc hacc
    rw [if_neg h2c]
    by_cases h3c : cfg.tanThetaMax < |s1.protoSlope_v|
    · rw [if_pos h3c]; exact ih s1 acc hacc
    rw [if_neg h3c]
    by_cases h4c : cfg.tanPhiMax < |s1.protoSlope_u|
    · rw [if_pos h4c]; exact ih s1 acc hacc
    rw [if_neg h4c]
    by_cases h5c : s2.protoSegment.length < minHitsAdaptive cfg nHit
    · rw [if_pos h5c]; exact ih s2 acc hacc
    rw [if_neg h5c]
    by_cases h6c : nHit - s3.protoSegment.length < 3
    · rw [if_pos h6c]
      show (acc ++ [mkSegment env { s3 with protoDirection := computeDirection env s3 }]).length ≤ 5
      simpa using Nat.add_le_add_right hacc 1
    rw [if_neg h6c]
    by_cases h7c : 4 < (acc ++ [mkSegment env { s3 with protoDirection := computeDirection env s3 }]).length
    · rw [if_pos h7c]
      show (acc ++ [mkSegment env { s3 with protoDirection := computeDirection env s3 }]).length ≤ 5
      simpa using Nat.add_le_add_right hacc 1
    rw [if_neg h7c]
    exact ih (flagHitsAsUsed hits { s3 with protoDirection := computeDirection env s3 })
      (acc ++ [mkSegment env { s3 with protoDirection := computeDirection env s3 }])
      (Nat.not_lt.mp h7c)

lemma seedPairIter_used_mono (env : DFEnv) (cfg : DFConfig) (hits : List CSCRecHit2D)
    (lidx : List Int) (nHit : ℕ) (i1 : ℕ) (h1 : CSCRecHit2D) (layer1 : Int) :
    ∀ (l : List ℕ) (s : DFState) (acc : List CSCSegment) (j : ℕ),
    s.usedHits.getD j false = true →
    (match seedPairIter env cfg hits lidx nHit i1 h1 layer1 l s acc with
      | Except.error _ => True
      | Except.ok (s2, _) => s2.usedHits.getD j false = true) := by
  intro l
  induction l with
  | nil => intro s acc j hj; simpa [seedPairIter] using hj
  | cons i2 rest ih =>
    intro s acc j hj
    simp only [seedPairIter]
    set s1 := seedProtoState env h1 (hits.getD i2 dummyHit) layer1 (lidx.getD i2 0) s with hs1
    set s2 := tryAddingHitsToSegment env cfg hits i1 i2
      { s1 with protoSegment := [h1, hits.getD i2 dummyHit] } with hs2
    set s3 := updateParameters env s2 with hs3
    clear_value s3 s2 s1
    have hj1 : s1.usedHits.getD j false = true := by
      rw [hs1, seedProtoState_usedHits]; exact hj
    have hj2 : s2.usedHits.getD j false = true := by
      rw [hs2, tryAdding_usedHits, withProtoSegment_usedHits]; exact hj1
    have hj4 : ({ s3 with protoDirection := computeDirection env s3 } : DFState).usedHits.getD j
        false = true := by
      rw [withDirection_usedHits, hs3, updateParameters_usedHits]; exact hj2
    by_cases h1c : s.usedHits.getD i2 false = true
    · rw [if_pos h1c]; exact ih s acc j hj
    rw [if_neg h1c]
    by_cases h2c : lidx.getD i2 0 - layer1 < cfg.minLayersApart
    · rw [if_pos h2c]; exact ih s acc j hj
    rw [if_neg h2c]
    by_cases h3c : cfg.tanThetaMax < |s1.protoSlope_v|
    · rw [if_pos h3c]; exact ih s1 acc j hj1
    rw [if_neg h3c]
    by_cases h4c : cfg.tanPhiMax < |s1.protoSlope_u|
    · rw [if_pos h4c]; exact ih s1 acc j hj1
    rw [if_neg h4c]
    by_cases h5c : s2.protoSegment.length < minHitsAdaptive cfg nHit
    · rw [if_pos h5c]; exact ih s2 acc j hj2
    rw [if_neg h5c]
    by_cases h6c : nHit - s3.protoSegment.length < 3
    · rw [if_pos h6c]; trivial
    rw [if_neg h6c]
    by_cases h7c : 4 < (acc ++ [mkSegment env { s3 with protoDirection := computeDirection env s3 }]).length
    · rw [if_pos h7c]; trivial
    rw [if_neg h7c]
    exact ih (flagHitsAsUsed hits { s3 with protoDirection := computeDirection env s3 })
      (acc ++ [mkSegment env { s3 with protoDirection := computeDirection env s3 }]) j
      (flagHitsAsUsed_preserve hits _ j hj4)

lemma seedPairIter_minHits (env : DFEnv) (cfg : DFConfig) (hits : List CSCRecHit2D)
    (lidx : List Int) (nHit : ℕ) (i1 : ℕ) (h1 : CSCRecHit2D) (layer1 : Int) :
    ∀ (l : List ℕ) (s : DFState) (acc : List CSCSegment),
    (∀ sg ∈ acc, minHitsAdaptive cfg nHit ≤ sg.hits.length) →
    ∀ sg ∈ exceptSegs (seedPairIter env cfg hits lidx nHit i1 h1 layer1 l s acc),
      minHitsAdaptive cfg nHit ≤ sg.hits.length := by
  intro l
  induction l with
  | nil => intro s acc hacc; simpa [seedPairIter, exceptSegs] using hacc
  | cons i2 rest ih =>
    intro s acc hacc
    simp only [seedPairIter]
    set s1 := seedProtoState env h1 (hits.getD i2 dummyHit) layer1 (lidx.getD i2 0) s with hs1
    set s2 := tryAddingHitsToSegment env cfg hits i1 i2
      { s1 with protoSegment := [h1, hits.getD i2 dummyHit] } with hs2
    set s3 := updateParameters env s2 with hs3
    clear_value s3 s2 s1
    by_cases h1c : s.usedHits.getD i2 false = true
    · rw [if_pos h1c]; exact ih s acc hacc
    rw [if_neg h1c]
    by_cases h2c : lidx.getD i2 0 - layer1 < cfg.minLayersApart
    · rw [if_pos h2c]; exact ih s acc hacc
    rw [if_neg h2c]
    by_cases h3c : cfg.tanThetaMax < |s1.protoSlope_v|
    · rw [if_pos h3c]; exact ih s1 acc hacc
    rw [if_neg h3c]
    by_cases h4c : cfg.tanPhiMax < |s1.protoSlope_u|
    · rw [if_pos h4c]; exact ih s1 acc hacc
    rw [if_neg h4c]
    by_cases h5c : s2.protoSegment.length < minHitsAdaptive cfg nHit
    · rw [if_pos h5c]; exact ih s2 acc hacc
    rw [if_neg h5c]
    have hnew : ∀ sg ∈ acc ++ [mkSegment env { s3 with protoDirection := computeDirection env s3 }],
        minHitsAdaptive cfg nHit ≤ sg.hits.length := by
      intro sg hsg
      rcases List.mem_append.mp hsg with hsg | hsg
      · exact hacc sg hsg
      · rw [List.mem_singleton] at hsg
        subst hsg
        rw [mkSegment_hits, withDirection_protoSegment, hs3, updateParameters_protoSegment]
        exact Nat.not_lt.mp h5c
    by_cases h6c : nHit - s3.protoSegment.length < 3
    · rw [if_pos h6c]; exact hnew
    rw [if_neg h6c]
    by_cases h7c : 4 < (acc ++ [mkSegment env { s3 with protoDirection := computeDirection env s3 }]).length
    · rw [if_pos h7c]; exact hnew
    rw [if_neg h7c]
    exact ih (flagHitsAsUsed hits { s3 with protoDirection := computeDirection env s3 })
      (acc ++ [mkSegment env { s3 with protoDirection := computeDirection env s3 }]) hnew

lemma seedPairIter_pairwise (env : DFEnv) (cfg : DFConfig) (hits : List CSCRecHit2D)
    (lidx : List Int) (nHit : ℕ) (i1 : ℕ) (h1 : CSCRecHit2D) (layer1 : Int)
    (hmin : 1 ≤ cfg.minLayersApart) (hh1 : h1.layer = layer1)
    (hlidx : lidx = hits.map CSCRecHit2D.layer) :
    ∀ (l : List ℕ) (s : DFState) (acc : List CSCSegment),
    (∀ sg ∈ acc, sg.hits.Pairwise fun a b => a.layer ≠ b.layer) →
    ∀ sg ∈ exceptSegs (seedPairIter env cfg hits lidx nHit i1 h1 layer1 l s acc),
      sg.hits.Pairwise fun a b => a.layer ≠ b.layer := by
  intro l
  induction l with
  | nil => intro s acc hacc; simpa [seedPairIter, exceptSegs] using hacc
  | cons i2 rest ih =>
    intro s acc hacc
    simp only [seedPairIter]
    set s1 := seedProtoState env h1 (hits.getD i2 dummyHit) layer1 (lidx.getD i2 0) s with hs1
    set s2 := tryAddingHitsToSegment env cfg hits i1 i2
      { s1 with protoSegment := [h1, hits.getD i2 dummyHit] } with hs2
    set s3 := updateParameters env s2 with hs3
    clear_value s3 s2 s1
    by_cases h1c : s.usedHits.getD i2 false = true
    · rw [if_pos h1c]; exact ih s acc hacc
    rw [if_neg h1c]
    by_cases h2c : lidx.getD i2 0 - layer1 < cfg.minLayersApart
    · rw [if_pos h2c]; exact ih s acc hacc
    rw [if_neg h2c]
    by_cases h3c : cfg.tanThetaMax < |s1.protoSlope_v|
    · rw [if_pos h3c]; exact ih s1 acc hacc
    rw [if_neg h3c]
    by_cases h4c : cfg.tanPhiMax < |s1.protoSlope_u|
    · rw [if_pos h4c]; exact ih s1 acc hacc
    rw [if_neg h4c]
    by_cases h5c : s2.protoSegment.length < minHitsAdaptive cfg nHit
    · rw [if_pos h5c]; exact ih s2 acc hacc
    rw [if_neg h5c]
    have hne : h1.layer ≠ (hits.getD i2 dummyHit).layer := by
      have hgap : cfg.minLayersApart ≤ lidx.getD i2 0 - layer1 := not_lt.mp h2c
      have hmap : lidx.getD i2 0 = (hits.getD i2 dummyHit).layer := by
        rw [hlidx]; exact layer_getD_map hits i2
      rw [hh1]
      omega
    have hpair : ([h1, hits.getD i2 dummyHit] : List CSCRecHit2D).Pairwise
        (fun a b => a.layer ≠ b.layer) := by
      refine List.pairwise_cons.mpr ⟨?_, List.pairwise_singleton _ _⟩
      intro b hb
      rw [List.mem_singleton] at hb
      subst hb
      exact hne
    have hnew : ∀ sg ∈ acc ++ [mkSegment env { s3 with protoDirection := computeDirection env s3 }],
        sg.hits.Pairwise fun a b => a.layer ≠ b.layer := by
      intro sg hsg
      rcases List.mem_append.mp hsg with hsg | hsg
      · exact hacc sg hsg
      · rw [List.mem_singleton] at hsg
        subst hsg
        rw [mkSegment_hits, withDirection_protoSegment, hs3, updateParameters_protoSegment, hs2]
        exact tryAdding_pairwise env cfg hits i1 i2 _ hpair
    by_cases h6c : nHit - s3.protoSegment.length < 3
    · rw [if_pos h6c]; exact hnew
    rw [if_neg h6c]
    by_cases h7c : 4 < (acc ++ [mkSegment env { s3 with protoDirection := computeDirection env s3 }]).length
    · rw [if_pos h7c]; exact hnew
    rw [if_neg h7c]
    exact ih (flagHitsAsUsed hits { s3 with protoDirection := computeDirection env s3 })
      (acc ++ [mkSegment env { s3 with protoDirection := computeDirection env s3 }]) hnew
-- chunk: outer seed-loop invariants and skip equations

lemma seedOuterIter_len (env : DFEnv) (cfg : DFConfig) (hits : List CSCRecHit2D)
    (lidx : List Int) (nHit : ℕ) (innerIdx : List ℕ) :
    ∀ (l : List ℕ) (s : DFState) (acc : List CSCSegment), acc.length ≤ 4 →
    (seedOuterIter env cfg hits lidx nHit innerIdx l s acc).length ≤ 5 := by
  intro l
  induction l with
  | nil =>
    intro s acc hacc
    simpa [seedOuterIter] using Nat.le_succ_of_le hacc
  | cons i1 rest ih =>
    intro s acc hacc
    simp only [seedOuterIter]
    by_cases hu : s.usedHits.getD i1 false = true
    · rw [if_pos hu]; exact ih s acc hacc
    rw [if_neg hu]
    have hinner := seedPairIter_len env cfg hits lidx nHit i1 (hits.getD i1 dummyHit)
      (lidx.getD i1 0) innerIdx s acc hacc
    cases hres : seedPairIter env cfg hits lidx nHit i1 (hits.getD i1 dummyHit)
        (lidx.getD i1 0) innerIdx s acc with
    | error segs =>
      rw [hres] at hinner
      exact hinner
    | ok p =>
      obtain ⟨s2, acc2⟩ := p
      rw [hres] at hinner
      exact ih s2 acc2 hinner

lemma seedOuterIter_minHits (env : DFEnv) (cfg : DFConfig) (hits : List CSCRecHit2D)
    (lidx : List Int) (nHit : ℕ) (innerIdx : List ℕ) :
    ∀ (l : List ℕ) (s : DFState) (acc : List CSCSegment),
    (∀ sg ∈ acc, minHitsAdaptive cfg nHit ≤ sg.hits.length) →
    ∀ sg ∈ seedOuterIter env cfg hits lidx nHit innerIdx l s acc,
      minHitsAdaptive cfg nHit ≤ sg.hits.length := by
  intro l
  induction l with
  | nil => intro s acc hacc; simpa [seedOuterIter] using hacc
  | cons i1 rest ih =>
    intro s acc hacc
    simp only [seedOuterIter]
    by_cases hu : s.usedHits.getD i1 false = true
    · rw [if_pos hu]; exact ih s acc hacc
    rw [if_neg hu]
    have hinner := seedPairIter_minHits env cfg hits lidx nHit i1 (hits.getD i1 dummyHit)
      (lidx.getD i1 0) innerIdx s acc hacc
    cases hres : seedPairIter env cfg hits lidx nHit i1 (hits.getD i1 dummyHit)
        (lidx.getD i1 0) innerIdx s acc with
    | error segs =>
      rw [hres] at hinner
      exact hinner
    | ok p =>
      obtain ⟨s2, acc2⟩ := p
      rw [hres] at hinner
      exact ih s2 acc2 hinner

lemma seedOuterIter_pairwise (env : DFEnv) (cfg : DFConfig) (hits : List CSCRecHit2D)
    (lidx : List Int) (nHit : ℕ) (innerIdx : List ℕ)
    (hmin : 1 ≤ cfg.minLayersApart) (hlidx : lidx = hits.map CSCRecHit2D.layer) :
    ∀ (l : List ℕ) (s : DFState) (acc : List CSCSegment),
    (∀ sg ∈ acc, sg.hits.Pairwise fun a b => a.layer ≠ b.layer) →
    ∀ sg ∈ seedOuterIter env cfg hits lidx nHit innerIdx l s acc,
      sg.hits.Pairwise fun a b => a.layer ≠ b.layer := by
  intro l
  induction l with
  | nil => intro s acc hacc; simpa [seedOuterIter] using hacc
  | cons i1 rest ih =>
    intro s acc hacc
    simp only [seedOuterIter]
    by_cases hu : s.usedHits.getD i1 false = true
    · rw [if_pos hu]; exact ih s acc hacc
    rw [if_neg hu]
    have hh1 : (hits.getD i1 dummyHit).layer = lidx.getD i1 0 := by
      rw [hlidx]
      exact (layer_getD_map hits i1).symm
    have hinner := seedPairIter_pairwise env cfg hits lidx nHit i1 (hits.getD i1 dummyHit)
      (lidx.getD i1 0) hmin hh1 hlidx innerIdx s acc hacc
    cases hres : seedPairIter env cfg hits lidx nHit i1 (hits.getD i1 dummyHit)
        (lidx.getD i1 0) innerIdx s acc with
    | error segs =>
      rw [hres] at hinner
      exact hinner
    | ok p =>
      obtain ⟨s2, acc2⟩ := p
      rw [hres] at hinner
      exact ih s2 acc2 hinner

lemma seedPairIter_skip_used (env : DFEnv) (cfg : DFConfig) (hits : List CSCRecHit2D)
    (lidx : List Int) (nHit : ℕ) (i1 : ℕ) (h1 : CSCRecHit2D) (layer1 : Int)
    (i2 : ℕ) (rest : List ℕ) (s : DFState) (acc : List CSCSegment)
    (hused : s.usedHits.getD i2 false = true) :
    seedPairIter env cfg hits lidx nHit i1 h1 layer1 (i2 :: rest) s acc
      = seedPairIter env cfg hits lidx nHit i1 h1 layer1 rest s acc := by
  simp only [seedPairIter]
  rw [if_pos hused]

lemma extendScan_skip_used (env : DFEnv) (cfg : DFConfig) (hits : List CSCRecHit2D)
    (i1 i2 : ℕ) (i : ℕ) (rest : List ℕ) (s : DFState)
    (hne1 : i ≠ i1) (hne2 : i ≠ i2) (hused : s.usedHits.getD i false = true) :
    extendScan env cfg hits i1 i2 (i :: rest) s = extendScan env cfg hits i1 i2 rest s := by
  simp only [extendScan]
  rw [if_neg (by exact fun hor => hor.elim hne1 hne2), if_pos hused]

lemma seedOuterIter_skip_used (env : DFEnv) (cfg : DFConfig) (hits : List CSCRecHit2D)
    (lidx : List Int) (nHit : ℕ) (innerIdx : List ℕ) (i1 : ℕ) (rest : List ℕ)
    (s : DFState) (acc : List CSCSegment)
    (hused : s.usedHits.getD i1 false = true) :
    seedOuterIter env cfg hits lidx nHit innerIdx (i1 :: rest) s acc
      = seedOuterIter env cfg hits lidx nHit innerIdx rest s acc := by
  simp only [seedOuterIter]
  rw [if_pos hused]

/- ----------------------------------------------------------------- -/
/- Claim theorems.                                                    -/
/- ----------------------------------------------------------------- -/

/-- C1: the spec says the provisional seed slopes are computed from the
difference of the own chamber-local projected positions of the two hits
over their global z-gap.  The source (line 119) projects the local
position of the FIRST hit through the frame of the second layer, so the
measured position of the second hit never enters: at a planar-translation geometry with
h1 at (0,0) on layer 1 and h2 at (10,0) on layer 2, the source slopes
are (0,0) while the slopes the spec describes are (10,0). -/
theorem c1_seed_slope_ignores_second_hit :
    protoSlopes envA (mkHit 0 1) hC1b 1 2 = (0, 0) ∧
    protoSlopes_fromSpec envA (mkHit 0 1) hC1b 1 2 = (10, 0) ∧
    protoSlopes envA (mkHit 0 1) hC1b 1 2 ≠ protoSlopes_fromSpec envA (mkHit 0 1) hC1b 1 2 := by
  refine ⟨?_, ?_, ?_⟩ <;> with_unfolding_all decide

/-- C2 (counterexample): a chamber invocation CAN return five segments,
because the `size() > 4` guard runs only after the push: on ten hits
with permissive configuration, buildSegments returns 5 segments. -/
theorem c2_counterexample_five_segments :
    (buildSegments envA cfgA hitsA).length = 5 := by
  with_unfolding_all decide

/-- C2 (amended): every chamber invocation returns at most 5 segments —
the guard `segmentInChamber.size() > 4` is checked only after appending,
so a fifth segment can be appended and returned, but never a sixth. -/
theorem c2_at_most_five_segments :
    ∀ (env : DFEnv) (cfg : DFConfig) (rechits : List CSCRecHit2D),
    (buildSegments env cfg rechits).length ≤ 5 := by
  intro env cfg rechits
  simp only [buildSegments]
  by_cases hn : rechits.length < 3
  · rw [if_pos hn]; exact Nat.le_of_lt_succ (by exact Nat.lt_succ_of_lt (by simp))
  · rw [if_neg hn]
    exact seedOuterIter_len env cfg _ _ _ _ (List.range rechits.length)
      (initState rechits.length) [] (Nat.zero_le 4)

/-- C3 (counterexample): the forward seed of the outer loop is not
re-checked against the used flags inside the inner loop, so hit 0,
committed to the first accepted segment and flagged used, goes on to
seed the four later-accepted segments of the same invocation. -/
theorem c3_counterexample_used_seed_reused :
    (buildSegments envA cfgA hitsA).map (fun sg => sg.hits.map CSCRecHit2D.hid)
      = [[0, 9], [0, 8], [0, 7], [0, 6], [0, 5]] := by
  with_unfolding_all decide

/-- C3 (amended): every hit of the finalized proto-segment or of the
CloseHits list is marked used by identity via linear scan; the flags
survive the rest of the inner loop (only flagHitsAsUsed touches them,
and it only sets bits); and a hit marked used is never selected as a
backward (i2) seed, never added by the extension scan, and never
selected as a NEW forward seed at the top of a later outer iteration —
but the forward seed of the outer iteration already in progress is not
re-checked, so it can still seed later segments of that iteration. -/
theorem c3_used_hits_tracking :
    (∀ (hits : List CSCRecHit2D) (s : DFState) (j : ℕ),
      j < hits.length → j < s.usedHits.length →
      (hits.getD j dummyHit ∈ s.protoSegment ∨ hits.getD j dummyHit ∈ s.closeHits) →
      (flagHitsAsUsed hits s).usedHits.getD j false = true) ∧
    (∀ (env : DFEnv) (cfg : DFConfig) (hits : List CSCRecHit2D) (lidx : List Int)
      (nHit i1 : ℕ) (h1 : CSCRecHit2D) (layer1 : Int) (l : List ℕ) (s : DFState)
      (acc : List CSCSegment) (j : ℕ), s.usedHits.getD j false = true →
      (match seedPairIter env cfg hits lidx nHit i1 h1 layer1 l s acc with
        | Except.error _ => True
        | Except.ok (s2, _) => s2.usedHits.getD j false = true)) ∧
    (∀ (env : DFEnv) (cfg : DFConfig) (hits : List CSCRecHit2D) (lidx : List Int)
      (nHit i1 : ℕ) (h1 : CSCRecHit2D) (layer1 : Int) (i2 : ℕ) (rest : List ℕ)
      (s : DFState) (acc : List CSCSegment), s.usedHits.getD i2 false = true →
      seedPairIter env cfg hits lidx nHit i1 h1 layer1 (i2 :: rest) s acc
        = seedPairIter env cfg hits lidx nHit i1 h1 layer1 rest s acc) ∧
    (∀ (env : DFEnv) (cfg : DFConfig) (hits : List CSCRecHit2D) (i1 i2 i : ℕ)
      (rest : List ℕ) (s : DFState), i ≠ i1 → i ≠ i2 →
      s.usedHits.getD i false = true →
      extendScan env cfg hits i1 i2 (i :: rest) s = extendScan env cfg hits i1 i2 rest s) ∧
    (∀ (env : DFEnv) (cfg : DFConfig) (hits : List CSCRecHit2D) (lidx : List Int)
      (nHit : ℕ) (innerIdx : List ℕ) (i1 : ℕ) (rest : List ℕ) (s : DFState)
      (acc : List CSCSegment), s.usedHits.getD i1 false = true →
      seedOuterIter env cfg hits lidx nHit innerIdx (i1 :: rest) s acc
        = seedOuterIter env cfg hits lidx nHit innerIdx rest s acc) :=
  ⟨fun hits s j hj hlen hmem => flagHitsAsUsed_marks hits s j hj hlen hmem,
   fun env cfg hits lidx nHit i1 h1 layer1 l s acc j hj =>
     seedPairIter_used_mono env cfg hits lidx nHit i1 h1 layer1 l s acc j hj,
   fun env cfg hits lidx nHit i1 h1 layer1 i2 rest s acc hj =>
     seedPairIter_skip_used env cfg hits lidx nHit i1 h1 layer1 i2 rest s acc hj,
   fun env cfg hits i1 i2 i rest s hne1 hne2 hj =>
     extendScan_skip_used env cfg hits i1 i2 i rest s hne1 hne2 hj,
   fun env cfg hits lidx nHit innerIdx i1 rest s acc hj =>
     seedOuterIter_skip_used env cfg hits lidx nHit innerIdx i1 rest s acc hj⟩

/-- C3 (witness): the five parts of the used-hit tracking theorem at
concrete inputs. -/
theorem c3_used_hits_tracking_witness :
    ((flagHitsAsUsed [mkHit 0 1] sW1).usedHits.getD 0 false = true) ∧
    (match seedPairIter envA cfgA [] [] 0 0 (mkHit 0 1) 1 [] sW2 [] with
      | Except.error _ => True
      | Except.ok (s2, _) => s2.usedHits.getD 0 false = true) ∧
    (seedPairIter envA cfgA [] [] 0 0 (mkHit 0 1) 1 [0] sW2 []
      = seedPairIter envA cfgA [] [] 0 0 (mkHit 0 1) 1 [] sW2 []) ∧
    (extendScan envA cfgA [] 1 2 [0] sW2 = extendScan envA cfgA [] 1 2 [] sW2) ∧
    (seedOuterIter envA cfgA [] [] 0 [] [0] sW2 []
      = seedOuterIter envA cfgA [] [] 0 [] [] sW2 []) :=
  ⟨c3_used_hits_tracking.1 [mkHit 0 1] sW1 0 (by decide) (by decide)
      (Or.inl (by with_unfolding_all decide)),
   c3_used_hits_tracking.2.1 envA cfgA [] [] 0 0 (mkHit 0 1) 1 [] sW2 [] 0
      (by with_unfolding_all decide),
   c3_used_hits_tracking.2.2.1 envA cfgA [] [] 0 0 (mkHit 0 1) 1 0 [] sW2 []
      (by with_unfolding_all decide),
   c3_used_hits_tracking.2.2.2.1 envA cfgA [] 1 2 0 [] sW2 (by decide) (by decide)
      (by with_unfolding_all decide),
   c3_used_hits_tracking.2.2.2.2 envA cfgA [] [] 0 [] 0 [] sW2 []
      (by with_unfolding_all decide)⟩

/-- C4 (counterexample): the reversal condition of the normalization
(lines 76-90) is decided from the layer-1 and layer-6 z positions of
the chamber alone and never inspects the lists.  In a reversing
chamber — here layer n sits at global z = 7 - n, so z1 = 6 > z6 = 1 > 0
— a hit list already in canonical z-increasing order (global depths
[1, 2, 3]) is reversed by the first application, and the second
application reverses it again: the second application is not a no-op
on a canonically ordered input. -/
theorem c4_counterexample_not_idempotent :
    (pR.1.map (fun h => (envR.layerToGlobal h.layer (h.lx, h.ly)).2.2) = [1, 2, 3]) ∧
    normalizeOrder envR pR ≠ pR ∧
    normalizeOrder envR (normalizeOrder envR pR) ≠ normalizeOrder envR pR := by
  refine ⟨?_, ?_, ?_⟩ <;> with_unfolding_all decide

/-- C4 (amended): because the reversal condition depends only on the
chamber geometry and never on the lists, applying the normalization
twice returns any hit list and its parallel layer-index list — in
particular one already in canonical order — to its original state: the
normalization is an involution.  It is not idempotent: in a chamber
whose geometry triggers reversal, the second application reverses
again, undoing the first rather than skipping it. -/
theorem c4_normalize_involution :
    ∀ (env : DFEnv) (p : List CSCRecHit2D × List Int),
    normalizeOrder env (normalizeOrder env p) = p := by
  intro env p
  simp only [normalizeOrder]
  by_cases h : reverseCond env = true
  · simp [h]
  · simp [h]

/-- C5 (counterexample): on five hits, after the second accepted
segment only two hits remain outside the accepted segments (fewer than
3 unused hits), yet the invocation goes on to accept two further
segments: the early-return check compares the TOTAL hit count against
the current proto-segment size, not the count of unused hits. -/
theorem c5_counterexample_no_early_return :
    ((buildSegments envA cfgA hitsB).map (fun sg => sg.hits.map CSCRecHit2D.hid)
      = [[0, 4], [0, 3], [0, 2], [0, 1]]) ∧
    ((hitsB.filter (fun h =>
        !(((buildSegments envA cfgA hitsB).getD 0 dummySeg).hits.contains h
          || ((buildSegments envA cfgA hitsB).getD 1 dummySeg).hits.contains h))).length = 2) := by
  refine ⟨?_, ?_⟩ <;> with_unfolding_all decide

/-- C5 (amended): whenever buildSegments accepts a segment and the
total chamber hit count minus the hit count of the accepted proto-segment is
below 3, it returns immediately with the segments accumulated so far,
without examining the remaining seed pairs. -/
theorem c5_early_return_on_low_hit_count :
    ∀ (env : DFEnv) (cfg : DFConfig) (hits : List CSCRecHit2D) (lidx : List Int)
      (nHit i1 : ℕ) (h1 : CSCRecHit2D) (layer1 : Int) (i2 : ℕ) (rest : List ℕ)
      (s s1 s2 s3 : DFState) (acc : List CSCSegment),
    s.usedHits.getD i2 false = false →
    ¬ lidx.getD i2 0 - layer1 < cfg.minLayersApart →
    s1 = seedProtoState env h1 (hits.getD i2 dummyHit) layer1 (lidx.getD i2 0) s →
    ¬ cfg.tanThetaMax < |s1.protoSlope_v| →
    ¬ cfg.tanPhiMax < |s1.protoSlope_u| →
    s2 = tryAddingHitsToSegment env cfg hits i1 i2
      { s1 with protoSegment := [h1, hits.getD i2 dummyHit] } →
    ¬ s2.protoSegment.length < minHitsAdaptive cfg nHit →
    s3 = updateParameters env s2 →
    nHit - s3.protoSegment.length < 3 →
    seedPairIter env cfg hits lidx nHit i1 h1 layer1 (i2 :: rest) s acc
      = Except.error (acc ++ [mkSegment env { s3 with protoDirection := computeDirection env s3 }]) := by
  intro env cfg hits lidx nHit i1 h1 layer1 i2 rest s s1 s2 s3 acc hu hl hs1 hv hph hs2 hok hs3 hrem
  subst hs1
  subst hs2
  subst hs3
  simp only [seedPairIter]
  rw [if_neg (by rw [hu]; exact Bool.false_ne_true), if_neg hl, if_neg hv, if_neg hph,
    if_neg hok, if_pos hrem]

/-- C5 (witness): on the three-hit chamber, the seed pair (0, 2) is
accepted with a two-hit proto-segment, 3 - 2 = 1 < 3 holds, and the
inner loop returns at once without examining the remaining index 1. -/
theorem c5_early_return_witness :
    seedPairIter envA cfgA hits3 [1, 2, 3] 3 0 (mkHit 0 1) 1 [2, 1] (initState 3) []
      = Except.error [mkSegment envA { c5s3 with protoDirection := computeDirection envA c5s3 }] :=
  c5_early_return_on_low_hit_count envA cfgA hits3 [1, 2, 3] 3 0 (mkHit 0 1) 1 2 [1]
    (initState 3) c5s1 c5s2 c5s3 []
    (by with_unfolding_all decide) (by with_unfolding_all decide) rfl
    (by with_unfolding_all decide) (by with_unfolding_all decide) rfl
    (by with_unfolding_all decide) rfl (by with_unfolding_all decide)

/-- C6: whenever the substitution attempted by compareProtoSegment
yields a chi-square strictly greater than the pre-call value, or the
add fails, the member state is restored exactly: the result is the
pre-call state, field for field (chi-square, intercept, both slopes,
direction, hit set; the used flags and CloseHits are never touched). -/
theorem c6_compare_rollback_exact :
    ∀ (env : DFEnv) (h : CSCRecHit2D) (layer : Int) (s : DFState),
    (s.protoChi2 < (compareAttempt env h layer s).2.protoChi2
      ∨ (compareAttempt env h layer s).1 = false) →
    compareProtoSegment env h layer s = s := by
  intro env h layer s hc
  have hu := compareAttempt_usedHits env h layer s
  have hcl := compareAttempt_closeHits env h layer s
  simp only [compareProtoSegment]
  rw [if_pos hc]
  exact DFState.ext hu rfl rfl rfl rfl rfl rfl hcl

/-- C6 (witness): adding a hit already present on a different layer
fails, and the state is returned unchanged. -/
theorem c6_compare_rollback_witness :
    compareProtoSegment envA (mkHit 0 1) 2 sW6 = sW6 :=
  c6_compare_rollback_exact envA (mkHit 0 1) 2 sW6 (Or.inr (by with_unfolding_all decide))

/-- C7: compareProtoSegment never increases the chi-square of the
proto-segment: on rollback the snapshot value is restored, and the change
is kept only when the new chi-square is not greater. -/
theorem c7_compare_chi2_nonincreasing :
    ∀ (env : DFEnv) (h : CSCRecHit2D) (layer : Int) (s : DFState),
    (compareProtoSegment env h layer s).protoChi2 ≤ s.protoChi2 := by
  intro env h layer s
  simp only [compareProtoSegment]
  by_cases hc : s.protoChi2 < (compareAttempt env h layer s).2.protoChi2
      ∨ (compareAttempt env h layer s).1 = false
  · rw [if_pos hc]
  · rw [if_neg hc]
    exact le_of_not_lt (not_or.mp hc).1

/-- C8: every segment accepted by buildSegments holds at least
minHitsPerSegment hits, plus one more when the chamber has more than 20
hits, plus another beyond 30; smaller proto-segments are discarded. -/
theorem c8_accepted_segment_min_hits :
    ∀ (env : DFEnv) (cfg : DFConfig) (rechits : List CSCRecHit2D)
      (sg : CSCSegment), sg ∈ buildSegments env cfg rechits →
    minHitsAdaptive cfg rechits.length ≤ sg.hits.length := by
  intro env cfg rechits sg hsg
  simp only [buildSegments] at hsg
  by_cases hn : rechits.length < 3
  · rw [if_pos hn] at hsg
    cases hsg
  · rw [if_neg hn] at hsg
    exact seedOuterIter_minHits env cfg _ _ _ _ (List.range rechits.length)
      (initState rechits.length) [] (by intro sg h; cases h) sg hsg

/-- C8 (witness): the first segment of the ten-hit run meets the
adaptive minimum. -/
theorem c8_accepted_segment_min_hits_witness :
    minHitsAdaptive cfgA hitsA.length
      ≤ ((buildSegments envA cfgA hitsA).get ⟨0, by with_unfolding_all decide⟩).hits.length :=
  c8_accepted_segment_min_hits envA cfgA hitsA _ (List.get_mem _ _ _)

/-- C9: provided the configured minimum layer separation between seed
hits is at least 1, no two hits of an accepted segment lie on the same
layer: the layers of the seed pair differ, direct extension only fills an
unoccupied layer, and conflict resolution erases every same-layer hit
before adding the candidate. -/
theorem c9_accepted_segment_distinct_layers :
    ∀ (env : DFEnv) (cfg : DFConfig) (rechits : List CSCRecHit2D),
    1 ≤ cfg.minLayersApart →
    ∀ sg ∈ buildSegments env cfg rechits,
      sg.hits.Pairwise fun a b => a.layer ≠ b.layer := by
  intro env cfg rechits hmin sg hsg
  simp only [buildSegments] at hsg
  by_cases hn : rechits.length < 3
  · rw [if_pos hn] at hsg
    cases hsg
  · rw [if_neg hn] at hsg
    exact seedOuterIter_pairwise env cfg _ _ _ _ hmin (normalizeOrder_map env rechits)
      (List.range rechits.length) (initState rechits.length) []
      (by intro sg h; cases h) sg hsg

/-- C9 (witness): the first segment of the ten-hit run has its two hits
on different layers. -/
theorem c9_accepted_segment_distinct_layers_witness :
    ((buildSegments envA cfgA hitsA).get ⟨0, by with_unfolding_all decide⟩).hits.Pairwise
      (fun a b => a.layer ≠ b.layer) :=
  c9_accepted_segment_distinct_layers envA cfgA hitsA (by with_unfolding_all decide) _
    (List.get_mem _ _ _)

/-- C10: given raw azimuthal angles in (-pi, pi] (the atan2 range), the
shifts of isHitNearSegment place both angles in [0, 2 pi), the raw
difference lies strictly in (-2 pi, 2 pi), the two wrap-around branches
of deltaPhiWrapAbs are unreachable, and deltaPhi equals the plain
absolute difference of the shifted angles, lying in [0, 2 pi). -/
theorem c10_deltaphi_normalization :
    ∀ (pi Hraw Sraw : ℚ), 0 < pi → -pi < Hraw → Hraw ≤ pi → -pi < Sraw → Sraw ≤ pi →
    (0 ≤ shiftPhi pi Hraw ∧ shiftPhi pi Hraw < 2 * pi) ∧
    (0 ≤ shiftPhi pi Sraw ∧ shiftPhi pi Sraw < 2 * pi) ∧
    (-(2 * pi) < shiftPhi pi Sraw - shiftPhi pi Hraw
      ∧ shiftPhi pi Sraw - shiftPhi pi Hraw < 2 * pi) ∧
    ¬ 2 * pi < shiftPhi pi Sraw - shiftPhi pi Hraw ∧
    ¬ shiftPhi pi Sraw - shiftPhi pi Hraw < -(2 * pi) ∧
    deltaPhiWrapAbs pi (shiftPhi pi Sraw - shiftPhi pi Hraw)
      = |shiftPhi pi Sraw - shiftPhi pi Hraw| ∧
    0 ≤ deltaPhiWrapAbs pi (shiftPhi pi Sraw - shiftPhi pi Hraw) ∧
    deltaPhiWrapAbs pi (shiftPhi pi Sraw - shiftPhi pi Hraw) < 2 * pi := by
  intro pi Hraw Sraw hpi hH1 hH2 hS1 hS2
  have hHb : 0 ≤ shiftPhi pi Hraw ∧ shiftPhi pi Hraw < 2 * pi := by
    unfold shiftPhi
    split_ifs with h <;> constructor <;> linarith
  have hSb : 0 ≤ shiftPhi pi Sraw ∧ shiftPhi pi Sraw < 2 * pi := by
    unfold shiftPhi
    split_ifs with h <;> constructor <;> linarith
  obtain ⟨hH0, hHlt⟩ := hHb
  obtain ⟨hS0, hSlt⟩ := hSb
  have hdlb : -(2 * pi) < shiftPhi pi Sraw - shiftPhi pi Hraw := by linarith
  have hdub : shiftPhi pi Sraw - shiftPhi pi Hraw < 2 * pi := by linarith
  have habs : deltaPhiWrapAbs pi (shiftPhi pi Sraw - shiftPhi pi Hraw)
      = |shiftPhi pi Sraw - shiftPhi pi Hraw| := by
    simp only [deltaPhiWrapAbs]
    rw [if_neg (not_lt.mpr (le_of_lt hdub)), if_neg (not_lt.mpr (le_of_lt hdlb))]
    rcases lt_or_le (shiftPhi pi Sraw - shiftPhi pi Hraw) 0 with h | h
    · rw [if_pos h, abs_of_neg h]
    · rw [if_neg (not_lt.mpr h), abs_of_nonneg h]
  refine ⟨⟨hH0, hHlt⟩, ⟨hS0, hSlt⟩, ⟨hdlb, hdub⟩, not_lt.mpr (le_of_lt hdub),
    not_lt.mpr (le_of_lt hdlb), habs, ?_, ?_⟩
  · rw [habs]
    exact abs_nonneg _
  · rw [habs]
    exact abs_lt.mpr ⟨hdlb, hdub⟩

/-- C10 (witness): the normalization at pi stand-in 4 with raw angles 1
and -1. -/
theorem c10_deltaphi_normalization_witness :
    (0 ≤ shiftPhi 4 1 ∧ shiftPhi 4 1 < 2 * 4) ∧
    (0 ≤ shiftPhi 4 (-1) ∧ shiftPhi 4 (-1) < 2 * 4) ∧
    (-(2 * 4) < shiftPhi 4 (-1) - shiftPhi 4 1 ∧ shiftPhi 4 (-1) - shiftPhi 4 1 < 2 * 4) ∧
    ¬ 2 * 4 < shiftPhi 4 (-1) - shiftPhi 4 1 ∧
    ¬ shiftPhi 4 (-1) - shiftPhi 4 1 < -(2 * 4) ∧
    deltaPhiWrapAbs 4 (shiftPhi 4 (-1) - shiftPhi 4 1) = |shiftPhi 4 (-1) - shiftPhi 4 1| ∧
    0 ≤ deltaPhiWrapAbs 4 (shiftPhi 4 (-1) - shiftPhi 4 1) ∧
    deltaPhiWrapAbs 4 (shiftPhi 4 (-1) - shiftPhi 4 1) < 2 * 4 :=
  c10_deltaphi_normalization 4 1 (-1) (by norm_num) (by norm_num) (by norm_num)
    (by norm_num) (by norm_num)
